import Mathlib

/-!
# gomu: popups and the global key dispatcher

A shallow embedding of `popup.go` and of the `SetInputCapture` handler of
`start.go`.  The UI toolkit (tview pages, lists, focus), the configuration
store (viper) and the command registry are collaborators of the program; they
appear here as small executable models or as parameters.
-/

namespace Gomu

/-! ## Strings -/

/-- Go `strings.Contains(s, substr)`: some suffix of `s` starts with `substr`.
The markers searched for are ASCII, so searching characters and searching
bytes of the UTF-8 encoding agree. -/
def Contains (s substr : String) : Bool :=
  s.data.tails.any (fun t => substr.data.isPrefixOf t)

/-! ## The page stack of the toolkit -/

/-- The primitives the program puts on pages. -/
inductive Item where
  | panels
  | modal (text : String)
  | frame (title desc : String)
  | list (items : List String)
  | inputField (label title : String)
deriving DecidableEq, Repr

/-- How a primitive is laid out on its page: the flex of `layout`, or the
primitive boxed by `center` or by `topRight` with a width and a height. -/
inductive Layout where
  | main (p : Item)
  | center (p : Item) (width height : Int)
  | topRight (p : Item) (width height : Int)
deriving DecidableEq, Repr

/-- A page of tview `Pages`: its name, what it shows and its visibility flag. -/
structure Page where
  name : String
  item : Layout
  visible : Bool
deriving DecidableEq, Repr

/-- Drops the first page carrying `name` (the `append(p.pages[:index],
p.pages[index+1:]...)` of the toolkit). -/
def dropPage (name : String) : List Page → List Page
  | [] => []
  | p :: ps => if p.name = name then ps else p :: dropPage name ps

/-- The toolkit keeps at least one page visible after a visible page was
removed: when no page before the last one is visible, the last one is shown. -/
def ensureVisible (pages : List Page) : List Page :=
  if pages.dropLast.any (fun p => p.visible) then pages
  else match pages.getLast? with
    | none => pages
    | some l => pages.dropLast ++ [{ l with visible := true }]

/-- tview `Pages.AddPage(name, item, resize, visible)`: a page of the same name
is replaced, the new page goes to the front (the end of the slice). -/
def AddPage (pages : List Page) (name : String) (item : Layout) (visible : Bool) : List Page :=
  dropPage name pages ++ [{ name := name, item := item, visible := visible }]

/-- tview `Pages.RemovePage(name)`: removes the first page of that name, if
there is one, and then keeps some page visible. -/
def RemovePage (pages : List Page) (name : String) : List Page :=
  match pages.find? (fun p => p.name = name) with
  | none => pages
  | some pg => if pg.visible then ensureVisible (dropPage name pages) else dropPage name pages

/-- tview `Pages.GetFrontPage()`: the name of the visible page nearest to the
front, the empty string when no page is visible. -/
def GetFrontPage (pages : List Page) : String :=
  match pages.reverse.find? (fun p => p.visible) with
  | some p => p.name
  | none => ""

/-! ## Key events and the global dispatcher (`start.go`) -/

/-- tcell key codes. -/
abbrev Key := Nat

def KeyTAB : Key := 9
def KeyEnter : Key := 13
def KeyEsc : Key := 27
def KeyEscape : Key := KeyEsc
def KeyRune : Key := 256

/-- A tcell `EventKey`: what `e.Key()` and `e.Rune()` return. -/
structure EventKey where
  key : Key
  rune : Char
deriving DecidableEq, Repr

/-- What the handler does to its collaborators, in program order. -/
inductive Call where
  | cyclePanels
  | getFn (cmd : String)
  | fn (cmd : String)
  | logError (err : String)
deriving DecidableEq, Repr

/-- The command table built inside the handler. -/
def cmds : List (Char × String) :=
  [('q', "quit"), (' ', "toggle_pause"), ('+', "volume_up"), ('-', "volume_down"),
   ('n', "skip"), (':', "command_search"), ('?', "toggle_help")]

/-- The loop `for key, cmd := range cmds` over the entries in the order the map
iteration yields them.  An entry whose key differs from the rune is skipped; a
failed resolution logs and leaves the handler; a resolved callable is called
and the loop goes on. -/
def rangeCmds (getFn : String → Except String Unit) (e : EventKey) :
    List (Char × String) → List Call
  | [] => []
  | (key, cmd) :: rest =>
    if e.rune ≠ key then rangeCmds getFn e rest
    else match getFn cmd with
      | .error err => [Call.getFn cmd, Call.logError err]
      | .ok _ => Call.getFn cmd :: Call.fn cmd :: rangeCmds getFn e rest

/-- The function given to `application.SetInputCapture` in `start`.  `order` is
the order in which the map `cmds` is iterated, `getFn` the command registry.
The result is the returned event and the calls made. -/
def inputCapture (order : List (Char × String)) (getFn : String → Except String Unit)
    (pages : List Page) (e : EventKey) : Option EventKey × List Call :=
  let popupName := GetFrontPage pages
  if Contains popupName "-input-" then (some e, [])
  else if e.key = KeyTAB then
    if Contains popupName "confirmation-" then (some e, [])
    else (some e, Call.cyclePanels :: rangeCmds getFn e order)
  else (some e, rangeCmds getFn e order)

/-! ## Formatting (`fmt`, `strings`) -/

/-- The character of a decimal digit. -/
def digitChar (d : Nat) : Char := Char.ofNat (48 + d)

/-- The digit loop of the integer formatter: while `u` has more than one
digit its last digit is put in front of the buffer and `u` is divided by ten;
the remaining digit goes in front of the rest. -/
def fmtDigits : Nat → Nat → List Char → List Char
  | 0, _, buf => buf
  | fuel + 1, u, buf =>
    if u < 10 then digitChar u :: buf
    else fmtDigits fuel (u / 10) (digitChar (u % 10) :: buf)

/-- The verb `%d` on a value that is not negative: its decimal digits, most
significant first.  A number has no more digits than its value plus one. -/
def formatNat (n : Nat) : String := String.mk (fmtDigits (n + 1) n [])

/-- The verb `%d` on a Go `int`. -/
def formatInt (v : Int) : String :=
  if v < 0 then "-" ++ formatNat v.natAbs else formatNat v.toNat

/-- The wrap of Go's 64-bit `int`: the value between -2^63 and 2^63 - 1 that is
congruent to `x` modulo 2^64.  Go defines signed overflow this way. -/
def wrapInt (x : Int) : Int :=
  (x + 9223372036854775808) % 18446744073709551616 - 9223372036854775808

/-- Go `strings.Repeat(s, count)`: `count` copies of `s`; a negative count
panics, which is `none` here. -/
def Repeat (s : String) (count : Int) : Option String :=
  if count < 0 then none else some (String.join (List.replicate count.toNat s))

/-! ## Configuration (`viper`, `time`) -/

/-- A `time.Duration`, in nanoseconds. -/
abbrev Duration := Int

/-- The constant `time.Second`. -/
def Second : Duration := 1000000000

/-- The settings viper holds after `readConfig`, keyed by their full dotted
path (`general.popup_timeout`, `color.accent`, and so on). -/
abbrev Config := List (String × String)

/-- viper `GetString(key)`: the value stored under exactly that path, the empty
string when nothing is stored there. -/
def GetString (cfg : Config) (key : String) : String :=
  (cfg.lookup key).getD ""

/-- `getPopupTimeout` of `popup.go`.  `ParseDuration` is the standard library
parser; the result is the duration and the errors given to `LogError`. -/
def getPopupTimeout (ParseDuration : String → Except String Duration) (cfg : Config) :
    Duration × List String :=
  let dur := GetString cfg "popup_timeout"
  match ParseDuration dur with
  | .error err => (Second * 5, [err])
  | .ok m => (m, [])

/-- A reduced stand-in for `time.ParseDuration`, used to instantiate theorems
that take the parser as a parameter: it knows the empty string (rejected, as
the library does) and whole seconds written `<digits>s`. -/
def secondsParser (s : String) : Except String Duration :=
  match s.data.reverse with
  | [] => .error "time: invalid duration \"\""
  | c :: ds =>
    if c = 's' ∧ ds ≠ [] ∧ ds.all Char.isDigit then
      .ok (Second * (ds.reverse.foldl (fun acc d => acc * 10 + (d.toNat - 48)) 0 : Nat))
    else .error ("time: invalid duration " ++ s)

/-! ## The UI state touched by the popups (`popup.go`) -/

/-- The panels of the application, the values `gomu.PrevPanel` ranges over. -/
inductive Panel where
  | playlist
  | queue
  | playingBar
deriving DecidableEq, Repr

/-- What `gomu.App.SetFocus` is called with in `popup.go`. -/
inductive Focus where
  | panel (p : Panel)
  | modal
  | list
  | urlField
  | nameField
deriving DecidableEq, Repr

/-- The state the popups read and write.  `PrevPanel` is assigned in `start`
before the event loop runs, so it always holds a panel.  `popupCounter` is the
package variable, a Go `int` (64 bits wide here) that starts at zero.  `timers`
are the sleeping goroutines of `timedPopup` with the id each one captured,
`errors` what went to `LogError`, `downloads` the urls handed to `Ytdl`,
`draws` the number of `App.Draw()` calls. -/
structure State where
  Pages : List Page
  focus : Focus
  PrevPanel : Panel
  popupCounter : Int
  timers : List (String × Duration)
  errors : List String
  downloads : List String
  draws : Nat
deriving DecidableEq, Repr

/-- tview `Pages.HasPage(name)`. -/
def HasPage (pages : List Page) (name : String) : Bool :=
  pages.any (fun p => p.name == name)

/-- The function `confirmationPopup`: the modal goes to the front and takes the
focus.  Closing it is left to the handler the caller passes in. -/
def confirmationPopup (g : State) (text : String) : State :=
  { g with
    Pages := AddPage g.Pages "confirmation-popup" (Layout.center (Item.modal text) 40 10) true
    focus := Focus.modal }

/-- The id `fmt.Sprintf("%s %d", "timeout-popup", popupCounter)`. -/
def popupId (popupCounter : Int) : String :=
  "timeout-popup" ++ " " ++ formatInt popupCounter

/-- The function `timedPopup`, up to the start of its goroutine, which is
recorded in `timers`.  The statement `popupCounter++` wraps as a Go `int`
does. -/
def timedPopup (g : State) (title desc : String) (timeout : Duration)
    (width height : Int) : State :=
  let size : Int × Int := if width = 0 ∧ height = 0 then (70, 7) else (width, height)
  let id := popupId g.popupCounter
  { g with
    popupCounter := wrapInt (g.popupCounter + 1)
    Pages := AddPage g.Pages id (Layout.topRight (Item.frame title desc) size.1 size.2) true
    focus := Focus.panel g.PrevPanel
    timers := g.timers ++ [(id, timeout)] }

/-- The goroutine of `timedPopup` once its sleep is over: `RemovePage`, `Draw`,
`SetFocus(PrevPanel)`. -/
def timerFired (g : State) (id : String) : State :=
  { g with
    Pages := RemovePage g.Pages id
    draws := g.draws + 1
    focus := Focus.panel g.PrevPanel }

/-- The text `progress` of `volumePopup`, from `vol`. -/
def volumeText (vol : Int) : Option String := do
  let bar ← Repeat "█" vol
  let rest ← Repeat "-" (50 - vol)
  pure ("\n" ++ formatInt vol ++ " |" ++ bar ++ rest ++ "| " ++ "50")

/-- The function `volumePopup`.  The volume is a float; `scaled` stands for the
converted product `int(volume*10)`. -/
def volumePopup (ParseDuration : String → Except String Duration) (cfg : Config)
    (g : State) (scaled : Int) : Option State := do
  let vol := scaled + 50
  let progress ← volumeText vol
  let t := getPopupTimeout ParseDuration cfg
  pure (timedPopup { g with errors := g.errors ++ t.2 } " Volume " progress t.1 0 0)

/-! ## The help list -/

/-- The fixed lines `genHelp` of `helpPopup`. -/
def genHelp : List String :=
  [" ",
   "tab    change panel",
   "space  toggle play/pause",
   "esc    close popup",
   "n      skip",
   "q      quit",
   "+      volume up",
   "-      volume down",
   "?      toggle help"]

/-- A tview `List`: its main texts and the selected index. -/
structure HelpList where
  items : List String
  currentItem : Int
deriving DecidableEq, Repr

/-- tview `List.AddItem`: appends; the selection of a list stays where it is. -/
def AddItem (l : HelpList) (v : String) : HelpList :=
  { l with items := l.items ++ [v] }

/-- tview `List.SetCurrentItem(index)`: a negative index counts from the back,
and the result is clamped to the items there are. -/
def SetCurrentItem (l : HelpList) (index : Int) : HelpList :=
  let n : Int := l.items.length
  let i1 := if index < 0 then n + index else index
  let i2 := if i1 ≥ n then n - 1 else i1
  let i3 := if i2 < 0 then 0 else i2
  { l with currentItem := i3 }

/-- The closure `prev` of `helpPopup`. -/
def prev (l : HelpList) : HelpList :=
  let currIndex := l.currentItem
  SetCurrentItem l (currIndex - 1)

/-- The closure `next` of `helpPopup`. -/
def next (l : HelpList) : HelpList :=
  let currIndex := l.currentItem
  let idx := if currIndex = (l.items.length : Int) - 1 then 0 else currIndex + 1
  SetCurrentItem l idx

/-- The list `helpPopup` builds: the two `for ... range` loops, the first
appending `genHelp` to the lines of the panel, the second adding every line to
the list. -/
def helpList (panelHelp : List String) : HelpList :=
  let helpText := genHelp.foldl (fun acc v => acc ++ [v]) panelHelp
  helpText.foldl AddItem { items := [], currentItem := 0 }

/-- The function `helpPopup`: builds the list, adds the page `help-page` and
gives the list the focus. -/
def helpPopup (g : State) (panelHelp : List String) : State × HelpList :=
  let list := helpList panelHelp
  ({ g with
     Pages := AddPage g.Pages "help-page" (Layout.center (Item.list list.items) 50 30) true
     focus := Focus.list },
   list)

/-- The input capture of the help list: `j` and `k` move the selection, Esc
closes the page and gives the focus to `PrevPanel`; the event is consumed. -/
def helpInputCapture (g : State) (l : HelpList) (e : EventKey) :
    State × HelpList × Option EventKey :=
  let l1 := if e.rune = 'j' then next l else if e.rune = 'k' then prev l else l
  let g1 := if e.key = KeyEsc then
      { g with Pages := RemovePage g.Pages "help-page", focus := Focus.panel g.PrevPanel }
    else g
  (g1, l1, none)

/-! ## The text-input popups -/

/-- The function `downloadMusicPopup`. -/
def downloadMusicPopup (g : State) : State :=
  { g with
    Pages := AddPage g.Pages "download-input-popup"
      (Layout.center (Item.inputField "Enter a url: " " Ytdl ") 50 4) true
    focus := Focus.urlField }

/-- The done function of the url field: Enter starts the download and removes
the page, Escape removes the page, and after the switch the focus goes to
`PrevPanel` whatever the key was. -/
def downloadDone (g : State) (key : Key) (url : String) : State :=
  let g1 :=
    if key = KeyEnter then
      { g with downloads := g.downloads ++ [url],
               Pages := RemovePage g.Pages "download-input-popup" }
    else if key = KeyEscape then
      { g with Pages := RemovePage g.Pages "download-input-popup" }
    else g
  { g1 with focus := Focus.panel g1.PrevPanel }

/-- The function `CreatePlaylistPopup`. -/
def CreatePlaylistPopup (g : State) : State :=
  { g with
    Pages := AddPage g.Pages "mkdir-input-popup"
      (Layout.center (Item.inputField "Enter a playlist name: " " New Playlist ") 50 4) true
    focus := Focus.nameField }

/-- The done function of the playlist-name field.  `CreatePlaylist` is the
playlist collaborator, returning its error if it has one. -/
def createPlaylistDone (CreatePlaylist : String → Option String) (g : State) (key : Key)
    (playListName : String) : State :=
  if key = KeyEnter then
    let g1 := match CreatePlaylist playListName with
      | some err => { g with errors := g.errors ++ [err] }
      | none => g
    { g1 with Pages := RemovePage g1.Pages "mkdir-input-popup",
              focus := Focus.panel g1.PrevPanel }
  else if key = KeyEsc then
    { g with Pages := RemovePage g.Pages "mkdir-input-popup",
             focus := Focus.panel g.PrevPanel }
  else g

/-- A run of `timedPopup` calls, one per entry of `calls` (title, text,
timeout, width, height), in order. -/
def timedPopups (g : State) (calls : List (String × String × Duration × Int × Int)) : State :=
  calls.foldl (fun s c => timedPopup s c.1 c.2.1 c.2.2.1 c.2.2.2.1 c.2.2.2.2) g

/-- The ids captured by the goroutines that a run of `timedPopup` calls
starts: the timers of the final state after those that were already there. -/
def openedIds (g : State) (calls : List (String × String × Duration × Int × Int)) :
    List String :=
  ((timedPopups g calls).timers.drop g.timers.length).map Prod.fst

/-! ## States used as examples -/

/-- A stack with the url popup in front of the panels. -/
def urlPopupOpen : List Page :=
  [{ name := "main", item := Layout.main Item.panels, visible := true },
   { name := "download-input-popup",
     item := Layout.center (Item.inputField "Enter a url: " " Ytdl ") 50 4, visible := true }]

/-- A stack with the confirmation popup in front of the panels. -/
def confirmationOpen : List Page :=
  [{ name := "main", item := Layout.main Item.panels, visible := true },
   { name := "confirmation-popup",
     item := Layout.center (Item.modal "Are you sure to exit?") 40 10, visible := true }]

/-- A stack with the panels only. -/
def mainOnly : List Page :=
  [{ name := "main", item := Layout.main Item.panels, visible := true }]

/-- A registry that knows every command of the table but `skip`. -/
def sampleRegistry (cmd : String) : Except String Unit :=
  if cmd = "skip" then Except.error "command not found" else Except.ok ()

/-- The state `start` leaves behind: the panels, the playlist focused and
tracked, no popup opened yet. -/
def started : State :=
  { Pages := mainOnly, focus := Focus.panel Panel.playlist, PrevPanel := Panel.playlist,
    popupCounter := 0, timers := [], errors := [], downloads := [], draws := 0 }

/-- Three volume popups in a row. -/
def threeCalls : List (String × String × Duration × Int × Int) :=
  [(" Volume ", "a", Second * 5, 0, 0), (" Volume ", "b", Second * 5, 0, 0),
   (" Volume ", "c", Second * 5, 0, 0)]

/-- The help popup shown over the panels: the list has the focus, the playlist
is the tracked panel. -/
def helpShown : State :=
  { Pages := [{ name := "main", item := Layout.main Item.panels, visible := true },
              { name := "help-page", item := Layout.center (Item.list genHelp) 50 30,
                visible := true }],
    focus := Focus.list, PrevPanel := Panel.playlist,
    popupCounter := 0, timers := [], errors := [], downloads := [], draws := 0 }

/-- The confirmation popup shown over the panels, the queue being the tracked
panel. -/
def confirmationShown : State :=
  { Pages := confirmationOpen, focus := Focus.modal, PrevPanel := Panel.queue,
    popupCounter := 4, timers := [], errors := [], downloads := [], draws := 0 }

/-- A configuration whose only setting is a popup timeout of two seconds, under
the path the configuration file uses. -/
def twoSeconds : Config := [("general.popup_timeout", "2s")]

/-- A help list of three lines with the last one selected. -/
def threeLines : HelpList := { items := ["a", "b", "c"], currentItem := 2 }

/-- A state whose counter holds the largest `int`. -/
def atMaxInt : State :=
  { Pages := mainOnly, focus := Focus.panel Panel.playlist, PrevPanel := Panel.playlist,
    popupCounter := 9223372036854775807, timers := [], errors := [], downloads := [],
    draws := 0 }

/-- Two volume popups in a row. -/
def twoCalls : List (String × String × Duration × Int × Int) :=
  [(" Volume ", "a", Second * 5, 0, 0), (" Volume ", "b", Second * 5, 0, 0)]

/-- A run of 2^64 + 1 volume popups. -/
def manyCalls : List (String × String × Duration × Int × Int) :=
  List.replicate 18446744073709551617 (" Volume ", "", Second * 5, 0, 0)

/-! ## Theorems -/

/-- The digit loop yields the decimal digits, given fuel beyond the value. -/
theorem fmtDigits_eq : ∀ (fuel u : Nat) (buf : List Char), u < fuel →
    fmtDigits fuel u buf =
      (if u = 0 then ['0'] else (Nat.digits 10 u).reverse.map digitChar) ++ buf := by
  intro fuel
  induction fuel with
  | zero => intro u buf h; omega
  | succ fuel ih =>
    intro u buf h
    by_cases hu : u < 10
    · by_cases h0 : u = 0
      · subst h0; simp [fmtDigits]; rfl
      · have hpos : 0 < u := Nat.pos_of_ne_zero h0
        simp [fmtDigits, hu, h0, Nat.digits_of_lt 10 u h0 hu]
    · have hpos : 0 < u := by omega
      have hdiv : u / 10 ≠ 0 := by omega
      have hlt : u / 10 < fuel := by omega
      rw [fmtDigits, if_neg hu, ih (u / 10) _ hlt]
      have h0 : u ≠ 0 := by omega
      rw [if_neg hdiv, if_neg h0, Nat.digits_def' (by norm_num : 1 < 10) hpos]
      simp

/-- The formatter in terms of the digits of the number. -/
theorem formatNat_eq (n : Nat) :
    formatNat n = if n = 0 then "0" else String.mk ((Nat.digits 10 n).reverse.map digitChar) := by
  unfold formatNat
  rw [fmtDigits_eq (n + 1) n [] (Nat.lt_succ_self n)]
  by_cases h : n = 0
  · simp [h]
  · simp [h]
/-- Distinct digits have distinct characters. -/
theorem digitChar_inj : ∀ a < 10, ∀ b < 10, digitChar a = digitChar b → a = b := by
  decide

/-- Digit strings are equal only when their digits are. -/
theorem map_digitChar_inj : ∀ (l1 l2 : List Nat), (∀ x ∈ l1, x < 10) → (∀ x ∈ l2, x < 10) →
    l1.map digitChar = l2.map digitChar → l1 = l2 := by
  intro l1
  induction l1 with
  | nil => intro l2 _ _ h; cases l2 with
    | nil => rfl
    | cons b bs => simp at h
  | cons a as ih =>
    intro l2 h1 h2 h
    cases l2 with
    | nil => simp at h
    | cons b bs =>
      simp only [List.map_cons, List.cons.injEq] at h
      have hab := digitChar_inj a (h1 a (by simp)) b (h2 b (by simp)) h.1
      have := ih bs (fun x hx => h1 x (by simp [hx])) (fun x hx => h2 x (by simp [hx])) h.2
      rw [hab, this]

/-- Only zero is printed as `0`. -/
theorem formatNat_pos_ne_zero (n : Nat) (hn : n ≠ 0) : formatNat n ≠ "0" := by
  intro h
  simp only [formatNat_eq, hn, if_false] at h
  have hd : ((Nat.digits 10 n).reverse.map digitChar) = ['0'] := by
    have := congrArg String.data h
    simpa using this
  have hl : (Nat.digits 10 n).reverse.map digitChar = [0].map digitChar := by
    rw [hd]; decide
  have hm := map_digitChar_inj _ _ (fun x hx => Nat.digits_lt_base (by norm_num) (List.mem_reverse.mp hx))
    (by decide) hl
  have h0 : Nat.digits 10 n = [0] := by
    have := congrArg List.reverse hm
    simpa using this
  have hlast := Nat.getLast_digit_ne_zero 10 hn
  simp [h0] at hlast

/-- Distinct numbers are printed differently. -/
theorem formatNat_injective : Function.Injective formatNat := by
  intro a b h
  by_cases ha : a = 0
  · by_cases hb : b = 0
    · rw [ha, hb]
    · subst ha
      exact absurd h.symm (formatNat_pos_ne_zero b hb)
  · by_cases hb : b = 0
    · subst hb
      exact absurd h (formatNat_pos_ne_zero a ha)
    · simp only [formatNat_eq, ha, hb, if_false] at h
      have hd := congrArg String.data h
      simp only at hd
      have hm := map_digitChar_inj _ _
        (fun x hx => Nat.digits_lt_base (by norm_num) (List.mem_reverse.mp hx))
        (fun x hx => Nat.digits_lt_base (by norm_num) (List.mem_reverse.mp hx)) hd
      exact Nat.digits_inj_iff.mp (List.reverse_injective hm)

/-- No digit is printed as a minus sign. -/
theorem digitChar_ne_minus : ∀ d < 10, digitChar d ≠ '-' := by
  decide

/-- The print of a number that is not negative holds no minus sign. -/
theorem minus_not_mem_formatNat (n : Nat) : '-' ∉ (formatNat n).data := by
  rw [formatNat_eq]
  by_cases hn : n = 0
  · rw [if_pos hn]; decide
  · rw [if_neg hn]
    intro hmem
    obtain ⟨d, hd, hc⟩ := List.mem_map.mp hmem
    exact digitChar_ne_minus d
      (Nat.digits_lt_base (by norm_num) (List.mem_reverse.mp hd)) hc

/-- Distinct integers are printed differently. -/
theorem formatInt_injective : Function.Injective formatInt := by
  intro a b h
  unfold formatInt at h
  by_cases ha : a < 0
  · by_cases hb : b < 0
    · rw [if_pos ha, if_pos hb] at h
      have hd := congrArg String.data h
      simp only [String.data_append] at hd
      have := formatNat_injective (String.ext (List.append_cancel_left hd))
      omega
    · rw [if_pos ha, if_neg hb] at h
      have hd := congrArg String.data h
      simp only [String.data_append] at hd
      have hmem : '-' ∈ (formatNat b.toNat).data := by
        rw [← hd]; exact List.mem_append_left _ (by decide)
      exact absurd hmem (minus_not_mem_formatNat _)
  · by_cases hb : b < 0
    · rw [if_neg ha, if_pos hb] at h
      have hd := congrArg String.data h
      simp only [String.data_append] at hd
      have hmem : '-' ∈ (formatNat a.toNat).data := by
        rw [hd]; exact List.mem_append_left _ (by decide)
      exact absurd hmem (minus_not_mem_formatNat _)
    · rw [if_neg ha, if_neg hb] at h
      have := formatNat_injective h
      omega

/-- Distinct counter values give distinct popup ids. -/
theorem popupId_injective : Function.Injective popupId := by
  intro a b h
  have hd := congrArg String.data h
  simp only [popupId, String.data_append] at hd
  exact formatInt_injective (String.ext (List.append_cancel_left hd))

/-- A value of the `int` range is its own wrap. -/
theorem wrapInt_of_inRange (x : Int) (hlo : -9223372036854775808 ≤ x)
    (hhi : x ≤ 9223372036854775807) : wrapInt x = x := by
  unfold wrapInt; omega

/-- Wrapping lands in the `int` range. -/
theorem wrapInt_inRange (x : Int) :
    -9223372036854775808 ≤ wrapInt x ∧ wrapInt x ≤ 9223372036854775807 := by
  unfold wrapInt; omega

/-- Wrapping after every step is wrapping once at the end. -/
theorem wrapInt_add (a b : Int) : wrapInt (wrapInt a + b) = wrapInt (a + b) := by
  unfold wrapInt; omega

/-- Two offsets less than 2^64 apart wrap to different values. -/
theorem wrapInt_add_inj (c : Int) (i j : Nat) (hi : i < 18446744073709551616)
    (hj : j < 18446744073709551616) (h : wrapInt (c + i) = wrapInt (c + j)) : i = j := by
  unfold wrapInt at h; omega

/-- Entries whose key is not the rune do not take part in the loop. -/
theorem rangeCmds_filter (getFn : String → Except String Unit) (e : EventKey)
    (l : List (Char × String)) :
    rangeCmds getFn e l = rangeCmds getFn e (l.filter (fun p => decide (p.1 = e.rune))) := by
  induction l with
  | nil => rfl
  | cons p ps ih =>
    obtain ⟨key, cmd⟩ := p
    by_cases h : key = e.rune
    · subst h
      simp only [List.filter, decide_True, rangeCmds, ne_eq, not_true_eq_false, if_false]
      cases getFn cmd with
      | error err => rfl
      | ok u => simp only [ih]
    · have h2 : e.rune ≠ key := fun h3 => h h3.symm
      simp [List.filter, rangeCmds, h, h2, ih]

/-- The entries of the table under a rune: at most one. -/
theorem cmds_filter (r : Char) :
    cmds.filter (fun p => decide (p.1 = r)) =
      match cmds.lookup r with
      | none => []
      | some cmd => [(r, cmd)] := by
  by_cases h1 : r = 'q'
  · subst h1; decide
  by_cases h2 : r = ' '
  · subst h2; decide
  by_cases h3 : r = '+'
  · subst h3; decide
  by_cases h4 : r = '-'
  · subst h4; decide
  by_cases h5 : r = 'n'
  · subst h5; decide
  by_cases h6 : r = ':'
  · subst h6; decide
  by_cases h7 : r = '?'
  · subst h7; decide
  have e1 : ('q' = r) = False := eq_false (fun h => h1 h.symm)
  have e2 : (' ' = r) = False := eq_false (fun h => h2 h.symm)
  have e3 : ('+' = r) = False := eq_false (fun h => h3 h.symm)
  have e4 : ('-' = r) = False := eq_false (fun h => h4 h.symm)
  have e5 : ('n' = r) = False := eq_false (fun h => h5 h.symm)
  have e6 : (':' = r) = False := eq_false (fun h => h6 h.symm)
  have e7 : ('?' = r) = False := eq_false (fun h => h7 h.symm)
  have b1 : (r == 'q') = false := beq_eq_false_iff_ne.mpr h1
  have b2 : (r == ' ') = false := beq_eq_false_iff_ne.mpr h2
  have b3 : (r == '+') = false := beq_eq_false_iff_ne.mpr h3
  have b4 : (r == '-') = false := beq_eq_false_iff_ne.mpr h4
  have b5 : (r == 'n') = false := beq_eq_false_iff_ne.mpr h5
  have b6 : (r == ':') = false := beq_eq_false_iff_ne.mpr h6
  have b7 : (r == '?') = false := beq_eq_false_iff_ne.mpr h7
  simp [cmds, List.filter, List.lookup, e1, e2, e3, e4, e5, e6, e7, b1, b2, b3, b4, b5, b6, b7]

/-- The loop calls nothing but the registry, the resolved callable and the
logger. -/
theorem cyclePanels_not_mem_rangeCmds (getFn : String → Except String Unit) (e : EventKey)
    (l : List (Char × String)) : Call.cyclePanels ∉ rangeCmds getFn e l := by
  induction l with
  | nil => simp [rangeCmds]
  | cons p ps ih =>
    obtain ⟨key, cmd⟩ := p
    by_cases h : e.rune = key
    · simp only [rangeCmds, ne_eq, h, not_true_eq_false, if_false]
      cases getFn cmd with
      | error err => simp
      | ok u => simp [ih]
    · simp [rangeCmds, h, ih]

/-- Whatever order the map is iterated in, the loop resolves the one command
stored under the rune, if there is one. -/
theorem rangeCmds_perm (getFn : String → Except String Unit) (e : EventKey)
    (order : List (Char × String)) (hperm : order.Perm cmds) :
    rangeCmds getFn e order =
      match cmds.lookup e.rune with
      | none => []
      | some cmd =>
        match getFn cmd with
        | .error err => [Call.getFn cmd, Call.logError err]
        | .ok _ => [Call.getFn cmd, Call.fn cmd] := by
  rw [rangeCmds_filter]
  have hp := hperm.filter (fun p => decide (p.1 = e.rune))
  rw [cmds_filter] at hp
  cases hl : cmds.lookup e.rune with
  | none =>
    rw [hl] at hp
    rw [List.perm_nil.mp hp]
    rfl
  | some cmd =>
    rw [hl] at hp
    rw [List.perm_singleton.mp hp]
    cases hg : getFn cmd <;> simp [rangeCmds, hg]

/-- C1: while the front page name contains the marker `-input-`, the global
handler resolves and calls no command and does not cycle the panels, for every
key event (so for the runes of the command table and for TAB), and returns the
event it was given. -/
theorem inputCapture_input_marker (order : List (Char × String))
    (getFn : String → Except String Unit) (pages : List Page) (e : EventKey)
    (h : Contains (GetFrontPage pages) "-input-" = true) :
    inputCapture order getFn pages e = (some e, []) := by
  simp [inputCapture, h]

/-- The url popup in front, the key `q`: nothing is called. -/
theorem inputCapture_input_marker_witness :
    Contains (GetFrontPage urlPopupOpen) "-input-" = true ∧
      inputCapture cmds (fun _ => Except.ok ()) urlPopupOpen ⟨KeyRune, 'q'⟩ =
        (some ⟨KeyRune, 'q'⟩, []) :=
  ⟨by decide, inputCapture_input_marker cmds (fun _ => Except.ok ()) urlPopupOpen
    ⟨KeyRune, 'q'⟩ (by decide)⟩

/-- C2: on a TAB event the handler does not cycle the panels (it calls nothing
at all) while the front page name contains `confirmation-`, and it calls
`cyclePanels` exactly once when the front page name contains neither `-input-`
nor `confirmation-`. -/
theorem inputCapture_tab (order : List (Char × String))
    (getFn : String → Except String Unit) (pages : List Page) (e : EventKey)
    (hk : e.key = KeyTAB) :
    (Contains (GetFrontPage pages) "confirmation-" = true →
      inputCapture order getFn pages e = (some e, [])) ∧
    (Contains (GetFrontPage pages) "-input-" = false →
      Contains (GetFrontPage pages) "confirmation-" = false →
      (inputCapture order getFn pages e).1 = some e ∧
      (inputCapture order getFn pages e).2.count Call.cyclePanels = 1) := by
  constructor
  · intro hc
    by_cases hi : Contains (GetFrontPage pages) "-input-" = true
    · simp [inputCapture, hi]
    · simp [inputCapture, hi, hk, hc]
  · intro hi hc
    have h0 := cyclePanels_not_mem_rangeCmds getFn e order
    simp [inputCapture, hi, hk, hc, List.count_eq_zero_of_not_mem h0]

/-- TAB over the confirmation popup and TAB over the panels alone. -/
theorem inputCapture_tab_witness :
    (Contains (GetFrontPage confirmationOpen) "confirmation-" = true ∧
      inputCapture cmds sampleRegistry confirmationOpen ⟨KeyTAB, '\t'⟩ =
        (some ⟨KeyTAB, '\t'⟩, [])) ∧
    (Contains (GetFrontPage mainOnly) "-input-" = false ∧
      Contains (GetFrontPage mainOnly) "confirmation-" = false ∧
      (inputCapture cmds sampleRegistry mainOnly ⟨KeyTAB, '\t'⟩).1 = some ⟨KeyTAB, '\t'⟩ ∧
      (inputCapture cmds sampleRegistry mainOnly ⟨KeyTAB, '\t'⟩).2.count Call.cyclePanels = 1) :=
  ⟨⟨by decide,
    (inputCapture_tab cmds sampleRegistry confirmationOpen ⟨KeyTAB, '\t'⟩ rfl).1 (by decide)⟩,
   ⟨by decide, by decide,
    (inputCapture_tab cmds sampleRegistry mainOnly ⟨KeyTAB, '\t'⟩ rfl).2 (by decide) (by decide)⟩⟩

/-- C9: for a key event that is neither held back by the marker `-input-` nor
a TAB swallowed by the marker `confirmation-`, and for whatever order the
command map is iterated in, the handler returns the event it was given and,
after the `cyclePanels` of a TAB, makes exactly these calls: none when the rune
is no key of the table; otherwise `getFn` on the command stored under the rune,
followed by one call of the resolved callable when the resolution succeeds, and
by `logError` of the error and no call when it fails. -/
theorem inputCapture_command (order : List (Char × String))
    (getFn : String → Except String Unit) (pages : List Page) (e : EventKey)
    (hperm : order.Perm cmds)
    (hi : Contains (GetFrontPage pages) "-input-" = false)
    (ht : ¬ (e.key = KeyTAB ∧ Contains (GetFrontPage pages) "confirmation-" = true)) :
    inputCapture order getFn pages e =
      (some e,
       (if e.key = KeyTAB then [Call.cyclePanels] else []) ++
        match cmds.lookup e.rune with
        | none => []
        | some cmd =>
          match getFn cmd with
          | .error err => [Call.getFn cmd, Call.logError err]
          | .ok _ => [Call.getFn cmd, Call.fn cmd]) := by
  have hr := rangeCmds_perm getFn e order hperm
  by_cases hk : e.key = KeyTAB
  · have hc : Contains (GetFrontPage pages) "confirmation-" = false := by
      cases h : Contains (GetFrontPage pages) "confirmation-"
      · rfl
      · exact absurd ⟨hk, h⟩ ht
    simp [inputCapture, hi, hk, hc, hr]
  · simp [inputCapture, hi, hk, hr]

/-- The key `n` over the confirmation popup, the table iterated backwards and
`skip` unknown to the registry. -/
theorem inputCapture_command_witness :
    (cmds.reverse.Perm cmds ∧
      Contains (GetFrontPage confirmationOpen) "-input-" = false ∧
      ¬ ((⟨KeyRune, 'n'⟩ : EventKey).key = KeyTAB ∧
          Contains (GetFrontPage confirmationOpen) "confirmation-" = true)) ∧
    inputCapture cmds.reverse sampleRegistry confirmationOpen ⟨KeyRune, 'n'⟩ =
      (some ⟨KeyRune, 'n'⟩, [Call.getFn "skip", Call.logError "command not found"]) :=
  ⟨⟨List.reverse_perm cmds, by decide, by decide⟩,
   inputCapture_command cmds.reverse sampleRegistry confirmationOpen ⟨KeyRune, 'n'⟩
    (List.reverse_perm cmds) (by decide) (by decide)⟩

/-! ### The page stack -/

/-- Dropping the page of one name keeps the pages of every other name. -/
theorem hasPage_dropPage (a b : String) (h : a ≠ b) (ps : List Page) :
    HasPage (dropPage a ps) b = HasPage ps b := by
  induction ps with
  | nil => rfl
  | cons p ps ih =>
    by_cases hp : p.name = a
    · have hb : (p.name == b) = false := beq_eq_false_iff_ne.mpr (by rw [hp]; exact h)
      simp [dropPage, hp, HasPage, h]
    · simp only [dropPage, hp, if_false]
      simp only [HasPage, List.any_cons] at ih ⊢
      rw [ih]

/-- Showing the last page does not change which names are on the stack. -/
theorem hasPage_ensureVisible (ps : List Page) (b : String) :
    HasPage (ensureVisible ps) b = HasPage ps b := by
  unfold ensureVisible
  split
  · rfl
  · cases hl : ps.getLast? with
    | none => rfl
    | some l =>
      have hps : ps.dropLast ++ [l] = ps := List.dropLast_append_getLast? l hl
      simp only
      conv_rhs => rw [← hps]
      simp [HasPage]

/-- Removing the page of one name keeps the pages of every other name. -/
theorem hasPage_RemovePage_ne (a b : String) (h : a ≠ b) (ps : List Page) :
    HasPage (RemovePage ps a) b = HasPage ps b := by
  unfold RemovePage
  cases ps.find? (fun p => p.name = a) with
  | none => rfl
  | some pg =>
    simp only
    split
    · rw [hasPage_ensureVisible, hasPage_dropPage a b h]
    · rw [hasPage_dropPage a b h]

/-- Removing a name that is not on the stack leaves the stack as it is. -/
theorem RemovePage_absent (ps : List Page) (a : String) (h : HasPage ps a = false) :
    RemovePage ps a = ps := by
  unfold RemovePage
  have hf : ps.find? (fun p => decide (p.name = a)) = none := by
    rw [List.find?_eq_none]
    intro x hx
    have := List.any_eq_false.mp h x hx
    simpa using this
  rw [hf]

/-- A page that was added is on the stack. -/
theorem hasPage_AddPage_self (ps : List Page) (a : String) (i : Layout) (v : Bool) :
    HasPage (AddPage ps a i v) a = true := by
  simp [HasPage, AddPage]

/-- Adding a page keeps the names that were on the stack. -/
theorem hasPage_AddPage_of_hasPage (ps : List Page) (a b : String) (i : Layout) (v : Bool)
    (h : HasPage ps b = true) : HasPage (AddPage ps a i v) b = true := by
  by_cases hab : a = b
  · subst hab; exact hasPage_AddPage_self ps a i v
  · have hd := hasPage_dropPage a b hab ps
    rw [h] at hd
    simp only [HasPage, AddPage, List.any_append] at hd ⊢
    rw [hd]; rfl

/-! ### Runs of timed popups -/

/-- The counter after a run: the starting value plus the number of calls,
wrapped. -/
theorem timedPopups_counter (calls : List (String × String × Duration × Int × Int)) :
    ∀ g : State, -9223372036854775808 ≤ g.popupCounter →
      g.popupCounter ≤ 9223372036854775807 →
      (timedPopups g calls).popupCounter = wrapInt (g.popupCounter + calls.length) := by
  induction calls with
  | nil =>
    intro g hlo hhi
    show g.popupCounter = wrapInt (g.popupCounter + ((0 : Nat) : Int))
    rw [Int.natCast_zero, Int.add_zero, wrapInt_of_inRange _ hlo hhi]
  | cons c cs ih =>
    intro g hlo hhi
    show (timedPopups (timedPopup g c.1 c.2.1 c.2.2.1 c.2.2.2.1 c.2.2.2.2) cs).popupCounter = _
    have hr := wrapInt_inRange (g.popupCounter + 1)
    rw [ih _ hr.1 hr.2]
    show wrapInt (wrapInt (g.popupCounter + 1) + (cs.length : Int)) = _
    rw [wrapInt_add, List.length_cons]
    congr 1
    push_cast
    ring

/-- The ids captured by the goroutines of a run, after those already
sleeping. -/
theorem timedPopups_timers (calls : List (String × String × Duration × Int × Int)) :
    ∀ g : State, -9223372036854775808 ≤ g.popupCounter →
      g.popupCounter ≤ 9223372036854775807 →
      (timedPopups g calls).timers.map Prod.fst =
        g.timers.map Prod.fst ++
          (List.range calls.length).map (fun k : Nat => popupId (wrapInt (g.popupCounter + (k : Int)))) := by
  induction calls with
  | nil => intro g _ _; simp [timedPopups]
  | cons c cs ih =>
    intro g hlo hhi
    show (timedPopups (timedPopup g c.1 c.2.1 c.2.2.1 c.2.2.2.1 c.2.2.2.2) cs).timers.map _ = _
    have hr := wrapInt_inRange (g.popupCounter + 1)
    rw [ih _ hr.1 hr.2]
    show (g.timers ++ [(popupId g.popupCounter, c.2.2.1)]).map Prod.fst ++
      (List.range cs.length).map
        (fun k : Nat => popupId (wrapInt (wrapInt (g.popupCounter + 1) + (k : Int)))) = _
    rw [List.length_cons, List.range_succ_eq_map]
    simp only [List.map_append, List.map_cons, List.map_nil, List.append_assoc,
      List.singleton_append, List.map_map]
    congr 2
    · rw [Int.natCast_zero, Int.add_zero, wrapInt_of_inRange _ hlo hhi]
    · apply List.map_congr_left
      intro k _
      simp only [Function.comp, wrapInt_add]
      congr 2
      push_cast
      ring

/-- The ids a run opens, in closed form. -/
theorem openedIds_eq (g : State) (calls : List (String × String × Duration × Int × Int))
    (hlo : -9223372036854775808 ≤ g.popupCounter)
    (hhi : g.popupCounter ≤ 9223372036854775807) :
    openedIds g calls =
      (List.range calls.length).map (fun k : Nat => popupId (wrapInt (g.popupCounter + (k : Int)))) := by
  unfold openedIds
  rw [List.map_drop, timedPopups_timers calls g hlo hhi,
    ← List.length_map g.timers Prod.fst, List.drop_left]

/-- A run removes no name from the stack. -/
theorem timedPopups_hasPage_mono (calls : List (String × String × Duration × Int × Int))
    (b : String) :
    ∀ g : State, HasPage g.Pages b = true → HasPage (timedPopups g calls).Pages b = true := by
  induction calls with
  | nil => intro g h; exact h
  | cons c cs ih =>
    intro g h
    show HasPage (timedPopups (timedPopup g c.1 c.2.1 c.2.2.1 c.2.2.2.1 c.2.2.2.2) cs).Pages b = _
    apply ih
    exact hasPage_AddPage_of_hasPage _ _ _ _ _ h

/-- The page of every call of a run is on the stack after the run. -/
theorem timedPopups_hasPage_id (calls : List (String × String × Duration × Int × Int)) :
    ∀ (g : State) (k : Nat), -9223372036854775808 ≤ g.popupCounter →
      g.popupCounter ≤ 9223372036854775807 → k < calls.length →
      HasPage (timedPopups g calls).Pages
        (popupId (wrapInt (g.popupCounter + (k : Int)))) = true := by
  induction calls with
  | nil => intro g k _ _ h; simp at h
  | cons c cs ih =>
    intro g k hlo hhi h
    show HasPage (timedPopups (timedPopup g c.1 c.2.1 c.2.2.1 c.2.2.2.1 c.2.2.2.2) cs).Pages _ = _
    cases k with
    | zero =>
      apply timedPopups_hasPage_mono
      rw [Int.natCast_zero, Int.add_zero, wrapInt_of_inRange _ hlo hhi]
      exact hasPage_AddPage_self _ _ _ _
    | succ k =>
      have hk : k < cs.length := by simpa using h
      have hr := wrapInt_inRange (g.popupCounter + 1)
      have := ih (timedPopup g c.1 c.2.1 c.2.2.1 c.2.2.2.1 c.2.2.2.2) k hr.1 hr.2 hk
      have hc : wrapInt ((timedPopup g c.1 c.2.1 c.2.2.1 c.2.2.2.1 c.2.2.2.2).popupCounter +
          (k : Int)) =
          wrapInt (g.popupCounter + ((k + 1 : Nat) : Int)) := by
        show wrapInt (wrapInt (g.popupCounter + 1) + (k : Int)) = _
        rw [wrapInt_add]
        congr 1
        push_cast
        ring
      rw [hc] at this
      exact this

/-- The length of the long run. -/
theorem manyCalls_length : manyCalls.length = 18446744073709551617 :=
  List.length_replicate _ _

/-- C3, as stated, fails at the wrap of the counter: at the largest `int` the
call does not leave the counter one higher but at the smallest `int`, so the
next id is `timeout-popup -9223372036854775808`; and in a run of 2^64 + 1
popups from the initial state the last id is the first one again. -/
theorem timedPopup_ids_wrap :
    (timedPopup atMaxInt " Volume " "" (Second * 5) 0 0).popupCounter =
      -9223372036854775808 ∧
    (timedPopup atMaxInt " Volume " "" (Second * 5) 0 0).popupCounter ≠
      atMaxInt.popupCounter + 1 ∧
    openedIds atMaxInt twoCalls =
      ["timeout-popup 9223372036854775807", "timeout-popup -9223372036854775808"] ∧
    ¬ (openedIds started manyCalls).Nodup := by
  refine ⟨by decide, by decide, by decide, ?_⟩
  intro hnd
  rw [openedIds_eq started manyCalls (by decide) (by decide), manyCalls_length] at hnd
  have h := List.inj_on_of_nodup_map hnd
    (List.mem_range.mpr (by norm_num : 0 < 18446744073709551617))
    (List.mem_range.mpr (by norm_num : 18446744073709551616 < 18446744073709551617))
    (by
      show popupId (wrapInt (started.popupCounter + ((0 : Nat) : Int))) =
        popupId (wrapInt (started.popupCounter + ((18446744073709551616 : Nat) : Int)))
      congr 1)
  exact absurd h (by norm_num)

/-- C3, amended: a call of `timedPopup` adds a page whose id is
`timeout-popup ` followed by the decimal value of `popupCounter`, hands that
id to its timer and sets `popupCounter` to the wrapped successor, which is one
more below the largest `int` and the smallest `int` at it; so the ids of a run
of N calls from the counter `c` are `timeout-popup wrap(c+k)` for `k < N`, and
for every N up to 2^64 they are pairwise distinct, their pages are all on the
stack after the run, and when the timer of one of them removes its page the
pages of the other ids are still on the stack. -/
theorem timedPopup_ids (g : State) (calls : List (String × String × Duration × Int × Int))
    (hlo : -9223372036854775808 ≤ g.popupCounter)
    (hhi : g.popupCounter ≤ 9223372036854775807)
    (hN : calls.length ≤ 18446744073709551616) :
    (∀ (title desc : String) (timeout : Duration) (width height : Int),
      (timedPopup g title desc timeout width height).popupCounter =
        wrapInt (g.popupCounter + 1) ∧
      (g.popupCounter < 9223372036854775807 →
        (timedPopup g title desc timeout width height).popupCounter = g.popupCounter + 1) ∧
      (g.popupCounter = 9223372036854775807 →
        (timedPopup g title desc timeout width height).popupCounter =
          -9223372036854775808) ∧
      (timedPopup g title desc timeout width height).timers =
        g.timers ++ [("timeout-popup " ++ formatInt g.popupCounter, timeout)] ∧
      HasPage (timedPopup g title desc timeout width height).Pages
        ("timeout-popup " ++ formatInt g.popupCounter) = true) ∧
    (timedPopups g calls).popupCounter = wrapInt (g.popupCounter + calls.length) ∧
    openedIds g calls =
      (List.range calls.length).map
        (fun k : Nat => "timeout-popup " ++ formatInt (wrapInt (g.popupCounter + (k : Int)))) ∧
    (openedIds g calls).Nodup ∧
    (∀ a ∈ openedIds g calls, HasPage (timedPopups g calls).Pages a = true) ∧
    (∀ a ∈ openedIds g calls, ∀ b ∈ openedIds g calls, a ≠ b →
      HasPage (timerFired (timedPopups g calls) a).Pages b = true) := by
  have hids := openedIds_eq g calls hlo hhi
  have hpage : ∀ a ∈ openedIds g calls, HasPage (timedPopups g calls).Pages a = true := by
    intro a ha
    rw [hids, List.mem_map] at ha
    obtain ⟨k, hk, rfl⟩ := ha
    exact timedPopups_hasPage_id calls g k hlo hhi (List.mem_range.mp hk)
  refine ⟨?_, timedPopups_counter calls g hlo hhi, hids, ?_, hpage, ?_⟩
  · intro title desc timeout width height
    refine ⟨rfl, ?_, ?_, rfl, hasPage_AddPage_self _ _ _ _⟩
    · intro hlt
      show wrapInt (g.popupCounter + 1) = g.popupCounter + 1
      exact wrapInt_of_inRange _ (by omega) (by omega)
    · intro heq
      show wrapInt (g.popupCounter + 1) = -9223372036854775808
      rw [heq]
      decide
  · rw [hids]
    apply List.Nodup.map_on _ (List.nodup_range _)
    intro i hi j hj hij
    have hi2 := List.mem_range.mp hi
    have hj2 := List.mem_range.mp hj
    exact wrapInt_add_inj g.popupCounter i j (by omega) (by omega) (popupId_injective hij)
  · intro a _ b hb hab
    show HasPage (RemovePage (timedPopups g calls).Pages a) b = true
    rw [hasPage_RemovePage_ne a b hab]
    exact hpage b hb

/-- Three popups from the initial state, the middle one expiring first. -/
theorem timedPopup_ids_witness :
    ((-9223372036854775808 : Int) ≤ started.popupCounter ∧
      started.popupCounter ≤ 9223372036854775807 ∧
      threeCalls.length ≤ 18446744073709551616) ∧
    openedIds started threeCalls = ["timeout-popup 0", "timeout-popup 1", "timeout-popup 2"] ∧
    (timedPopups started threeCalls).popupCounter = 3 ∧
    HasPage (timerFired (timedPopups started threeCalls) "timeout-popup 1").Pages
      "timeout-popup 0" = true ∧
    HasPage (timerFired (timedPopups started threeCalls) "timeout-popup 1").Pages
      "timeout-popup 2" = true :=
  ⟨by decide, by decide, by decide,
   (timedPopup_ids started threeCalls (by decide) (by decide) (by decide)).2.2.2.2.2
     "timeout-popup 1" (by decide) "timeout-popup 0" (by decide) (by decide),
   (timedPopup_ids started threeCalls (by decide) (by decide) (by decide)).2.2.2.2.2
     "timeout-popup 1" (by decide) "timeout-popup 2" (by decide) (by decide)⟩

/-! ### Closing and focus -/

/-- C4, as stated, fails: with the confirmation popup focused and no page
`timeout-popup 3` on the stack, the expiry of that timer moves the focus from
the modal to the tracked panel. -/
theorem timerFired_absent_moves_focus :
    HasPage confirmationShown.Pages "timeout-popup 3" = false ∧
    (timerFired confirmationShown "timeout-popup 3").Pages = confirmationShown.Pages ∧
    confirmationShown.focus = Focus.modal ∧
    (timerFired confirmationShown "timeout-popup 3").focus = Focus.panel Panel.queue ∧
    (timerFired confirmationShown "timeout-popup 3").focus ≠ confirmationShown.focus := by
  decide

/-- C4, amended: when the page id being closed is not on the stack, every
close path of `popup.go` (timer expiry, Esc on the help list, Enter or Escape
in the url field, Enter or Esc in the playlist-name field) leaves the page
stack exactly as it was, leaves `PrevPanel` as it was and logs no error of its
own, and it sets the focus to `PrevPanel`; so the focus is left as it was when
the focused surface was `PrevPanel`. -/
theorem close_absent (g : State) :
    (∀ id : String, HasPage g.Pages id = false →
      (timerFired g id).Pages = g.Pages ∧
      (timerFired g id).PrevPanel = g.PrevPanel ∧
      (timerFired g id).errors = g.errors ∧
      (timerFired g id).focus = Focus.panel g.PrevPanel ∧
      (g.focus = Focus.panel g.PrevPanel → (timerFired g id).focus = g.focus)) ∧
    (HasPage g.Pages "help-page" = false → ∀ (l : HelpList) (r : Char),
      (helpInputCapture g l ⟨KeyEsc, r⟩).1.Pages = g.Pages ∧
      (helpInputCapture g l ⟨KeyEsc, r⟩).1.PrevPanel = g.PrevPanel ∧
      (helpInputCapture g l ⟨KeyEsc, r⟩).1.errors = g.errors ∧
      (helpInputCapture g l ⟨KeyEsc, r⟩).1.focus = Focus.panel g.PrevPanel ∧
      (g.focus = Focus.panel g.PrevPanel →
        (helpInputCapture g l ⟨KeyEsc, r⟩).1.focus = g.focus)) ∧
    (HasPage g.Pages "download-input-popup" = false → ∀ (key : Key) (url : String),
      (downloadDone g key url).Pages = g.Pages ∧
      (downloadDone g key url).PrevPanel = g.PrevPanel ∧
      (downloadDone g key url).errors = g.errors ∧
      (downloadDone g key url).focus = Focus.panel g.PrevPanel ∧
      (g.focus = Focus.panel g.PrevPanel → (downloadDone g key url).focus = g.focus)) ∧
    (HasPage g.Pages "mkdir-input-popup" = false →
      ∀ (CreatePlaylist : String → Option String) (key : Key) (name : String),
      key = KeyEnter ∨ key = KeyEsc →
      (createPlaylistDone CreatePlaylist g key name).Pages = g.Pages ∧
      (createPlaylistDone CreatePlaylist g key name).PrevPanel = g.PrevPanel ∧
      (createPlaylistDone CreatePlaylist g key name).focus = Focus.panel g.PrevPanel ∧
      (g.focus = Focus.panel g.PrevPanel →
        (createPlaylistDone CreatePlaylist g key name).focus = g.focus)) := by
  refine ⟨?_, ?_, ?_, ?_⟩
  · intro id h
    refine ⟨RemovePage_absent g.Pages id h, rfl, rfl, rfl, fun hf => hf.symm⟩
  · intro h l r
    have hr := RemovePage_absent g.Pages "help-page" h
    exact ⟨hr, rfl, rfl, rfl, fun hf => hf.symm⟩
  · intro h key url
    have hr := RemovePage_absent g.Pages "download-input-popup" h
    by_cases h1 : key = KeyEnter
    · subst h1
      exact ⟨hr, rfl, rfl, rfl, fun hf => hf.symm⟩
    · by_cases h2 : key = KeyEscape
      · subst h2
        exact ⟨hr, rfl, rfl, rfl, fun hf => hf.symm⟩
      · have hd : downloadDone g key url = { g with focus := Focus.panel g.PrevPanel } := by
          simp [downloadDone, h1, h2]
        rw [hd]
        exact ⟨rfl, rfl, rfl, rfl, fun hf => hf.symm⟩
  · intro h CreatePlaylist key name hkey
    have hr := RemovePage_absent g.Pages "mkdir-input-popup" h
    rcases hkey with h1 | h2
    · subst h1
      cases hc : CreatePlaylist name with
      | none =>
        have hd : createPlaylistDone CreatePlaylist g KeyEnter name =
            { g with Pages := RemovePage g.Pages "mkdir-input-popup",
                     focus := Focus.panel g.PrevPanel } := by
          simp [createPlaylistDone, hc]
        rw [hd]
        exact ⟨hr, rfl, rfl, fun hf => hf.symm⟩
      | some err =>
        have hd : createPlaylistDone CreatePlaylist g KeyEnter name =
            { g with errors := g.errors ++ [err],
                     Pages := RemovePage g.Pages "mkdir-input-popup",
                     focus := Focus.panel g.PrevPanel } := by
          simp [createPlaylistDone, hc]
        rw [hd]
        exact ⟨hr, rfl, rfl, fun hf => hf.symm⟩
    · subst h2
      exact ⟨hr, rfl, rfl, fun hf => hf.symm⟩

/-- A stale timer firing while the tracked panel has the focus. -/
theorem close_absent_witness :
    HasPage started.Pages "timeout-popup 7" = false ∧
    started.focus = Focus.panel started.PrevPanel ∧
    (timerFired started "timeout-popup 7").Pages = started.Pages ∧
    (timerFired started "timeout-popup 7").focus = started.focus :=
  ⟨by decide, by decide,
   ((close_absent started).1 "timeout-popup 7" (by decide)).1,
   ((close_absent started).1 "timeout-popup 7" (by decide)).2.2.2.2 (by decide)⟩

/-- C5, as stated, fails: with the help list focused, opening a timed popup
and letting its timer close it leaves the focus on the tracked panel, not on
the list that had it before the popup was opened. -/
theorem timedPopup_close_loses_focus :
    helpShown.focus = Focus.list ∧
    (timerFired (timedPopup helpShown " Volume " "" (Second * 5) 0 0)
        (popupId helpShown.popupCounter)).focus = Focus.panel Panel.playlist ∧
    (timerFired (timedPopup helpShown " Volume " "" (Second * 5) 0 0)
        (popupId helpShown.popupCounter)).focus ≠ helpShown.focus ∧
    (timedPopup helpShown " Volume " "" (Second * 5) 0 0).PrevPanel = helpShown.PrevPanel := by
  decide

/-- C5, amended: no open call of `popup.go` writes `PrevPanel`, and for the
timed, help and text-input popups opening the popup and then closing it (timer
expiry; Esc on the help list; any key ending the url field; Enter or Esc in
the playlist-name field) leaves the focus on `PrevPanel`, the panel tracked
before the popup was opened.  So the focus returns to the surface that had it
before the open when that surface was `PrevPanel`.  The confirmation popup is
closed by the handler of its caller. -/
theorem open_close_focus (g : State) :
    (∀ (title desc : String) (timeout : Duration) (width height : Int),
      (timedPopup g title desc timeout width height).PrevPanel = g.PrevPanel ∧
      (timerFired (timedPopup g title desc timeout width height)
        (popupId g.popupCounter)).focus = Focus.panel g.PrevPanel) ∧
    (∀ (panelHelp : List String) (r : Char),
      (helpPopup g panelHelp).1.PrevPanel = g.PrevPanel ∧
      (helpInputCapture (helpPopup g panelHelp).1 (helpPopup g panelHelp).2
        ⟨KeyEsc, r⟩).1.focus = Focus.panel g.PrevPanel) ∧
    (∀ (key : Key) (url : String),
      (downloadMusicPopup g).PrevPanel = g.PrevPanel ∧
      (downloadDone (downloadMusicPopup g) key url).focus = Focus.panel g.PrevPanel) ∧
    (∀ (CreatePlaylist : String → Option String) (key : Key) (name : String),
      (CreatePlaylistPopup g).PrevPanel = g.PrevPanel ∧
      (key = KeyEnter ∨ key = KeyEsc →
        (createPlaylistDone CreatePlaylist (CreatePlaylistPopup g) key name).focus =
          Focus.panel g.PrevPanel)) ∧
    (∀ text : String, (confirmationPopup g text).PrevPanel = g.PrevPanel) ∧
    (g.focus = Focus.panel g.PrevPanel →
      (∀ (title desc : String) (timeout : Duration) (width height : Int),
        (timerFired (timedPopup g title desc timeout width height)
          (popupId g.popupCounter)).focus = g.focus) ∧
      (∀ (panelHelp : List String) (r : Char),
        (helpInputCapture (helpPopup g panelHelp).1 (helpPopup g panelHelp).2
          ⟨KeyEsc, r⟩).1.focus = g.focus) ∧
      (∀ (key : Key) (url : String),
        (downloadDone (downloadMusicPopup g) key url).focus = g.focus) ∧
      (∀ (CreatePlaylist : String → Option String) (key : Key) (name : String),
        key = KeyEnter ∨ key = KeyEsc →
        (createPlaylistDone CreatePlaylist (CreatePlaylistPopup g) key name).focus =
          g.focus)) := by
  have hdl : ∀ (key : Key) (url : String),
      (downloadDone (downloadMusicPopup g) key url).focus = Focus.panel g.PrevPanel := by
    intro key url
    by_cases h1 : key = KeyEnter
    · subst h1; rfl
    · by_cases h2 : key = KeyEscape
      · subst h2; rfl
      · simp [downloadDone, h1, h2, downloadMusicPopup]
  have hcp : ∀ (CreatePlaylist : String → Option String) (key : Key) (name : String),
      key = KeyEnter ∨ key = KeyEsc →
      (createPlaylistDone CreatePlaylist (CreatePlaylistPopup g) key name).focus =
        Focus.panel g.PrevPanel := by
    intro CreatePlaylist key name hkey
    rcases hkey with h1 | h2
    · subst h1
      cases hc : CreatePlaylist name <;>
        simp [createPlaylistDone, hc, CreatePlaylistPopup]
    · subst h2; rfl
  have hhelp : ∀ (panelHelp : List String) (r : Char),
      (helpInputCapture (helpPopup g panelHelp).1 (helpPopup g panelHelp).2
        ⟨KeyEsc, r⟩).1.focus = Focus.panel g.PrevPanel := by
    intro panelHelp r
    rfl
  refine ⟨fun _ _ _ _ _ => ⟨rfl, rfl⟩, fun ph r => ⟨rfl, hhelp ph r⟩,
    fun key url => ⟨rfl, hdl key url⟩, fun cp key name => ⟨rfl, hcp cp key name⟩,
    fun _ => rfl, ?_⟩
  intro hf
  refine ⟨fun _ _ _ _ _ => hf.symm, fun ph r => ?_, fun key url => ?_, fun cp key name hk => ?_⟩
  · rw [hhelp ph r, hf]
  · rw [hdl key url, hf]
  · rw [hcp cp key name hk, hf]

/-- The two text-input popups opened and closed from the initial state. -/
theorem open_close_focus_witness :
    started.focus = Focus.panel started.PrevPanel ∧
    (downloadDone (downloadMusicPopup started) KeyEnter "https://example.org/a").focus =
      started.focus ∧
    (createPlaylistDone (fun _ => none) (CreatePlaylistPopup started) KeyEsc "rock").focus =
      started.focus :=
  ⟨by decide,
   ((open_close_focus started).2.2.2.2.2 (by decide)).2.2.1 KeyEnter "https://example.org/a",
   ((open_close_focus started).2.2.2.2.2 (by decide)).2.2.2 (fun _ => none) KeyEsc "rock"
     (Or.inr rfl)⟩

/-! ### The help list -/

/-- Appending the elements of a list one by one appends the list. -/
theorem foldl_append_singleton (l init : List String) :
    l.foldl (fun acc v => acc ++ [v]) init = init ++ l := by
  induction l generalizing init with
  | nil => simp
  | cons x xs ih => simp [ih]

/-- Adding the lines one by one adds them in order and keeps the selection. -/
theorem foldl_AddItem (l : List String) (h : HelpList) :
    l.foldl AddItem h = { items := h.items ++ l, currentItem := h.currentItem } := by
  induction l generalizing h with
  | nil => simp
  | cons x xs ih => simp [ih, AddItem]

/-- C6: the items of the list `helpPopup` builds are the lines of the panel in
their order followed by the nine fixed lines in their order, so there are
`len(panel.Help()) + 9` of them; the page `help-page` shows that list. -/
theorem helpPopup_items (g : State) (panelHelp : List String) :
    (helpPopup g panelHelp).2.items =
      panelHelp ++ [" ", "tab    change panel", "space  toggle play/pause",
        "esc    close popup", "n      skip", "q      quit", "+      volume up",
        "-      volume down", "?      toggle help"] ∧
    (helpPopup g panelHelp).2.items.length = panelHelp.length + 9 ∧
    (helpPopup g panelHelp).1.Pages =
      AddPage g.Pages "help-page"
        (Layout.center (Item.list (panelHelp ++ genHelp)) 50 30) true := by
  have h : (helpList panelHelp).items = panelHelp ++ genHelp := by
    simp [helpList, foldl_append_singleton, foldl_AddItem]
  refine ⟨h, ?_, ?_⟩
  · show (helpList panelHelp).items.length = _
    rw [h, List.length_append]
    rfl
  · show AddPage g.Pages "help-page" (Layout.center (Item.list (helpList panelHelp).items) 50 30)
      true = _
    rw [h]

/-- One move of `next` from an index inside the list. -/
theorem next_eq (l : HelpList) (h0 : 0 ≤ l.currentItem)
    (hlt : l.currentItem < (l.items.length : Int)) :
    next l =
      { items := l.items, currentItem := (l.currentItem + 1) % (l.items.length : Int) } := by
  by_cases hlast : l.currentItem = (l.items.length : Int) - 1
  · have hmod : (l.currentItem + 1) % (l.items.length : Int) = 0 := by
      rw [hlast, Int.sub_add_cancel, Int.emod_self]
    rw [hmod]
    have hn : ¬ ((0 : Int) ≥ (l.items.length : Int)) := by omega
    simp [next, SetCurrentItem, hlast, hn]
  · have hlt2 : l.currentItem + 1 < (l.items.length : Int) := by omega
    have hmod : (l.currentItem + 1) % (l.items.length : Int) = l.currentItem + 1 :=
      Int.emod_eq_of_lt (by omega) hlt2
    rw [hmod]
    have h1 : ¬ (l.currentItem + 1 < 0) := by omega
    have h2 : ¬ (l.currentItem + 1 ≥ (l.items.length : Int)) := by omega
    simp [next, SetCurrentItem, hlast, h1, h2]

/-- Any number of moves of `next` from an index inside the list. -/
theorem iterate_next (k : Nat) (l : HelpList) (h0 : 0 ≤ l.currentItem)
    (hlt : l.currentItem < (l.items.length : Int)) :
    Nat.iterate next k l =
      { items := l.items, currentItem := (l.currentItem + k) % (l.items.length : Int) } := by
  have hpos : (0 : Int) < (l.items.length : Int) := by omega
  induction k with
  | zero =>
    have : (l.currentItem + ((0 : Nat) : Int)) % (l.items.length : Int) = l.currentItem := by
      rw [Int.natCast_zero, Int.add_zero]
      exact Int.emod_eq_of_lt h0 hlt
    rw [this]
    rfl
  | succ k ih =>
    rw [Function.iterate_succ_apply', ih]
    rw [next_eq _ (Int.emod_nonneg _ (by omega)) (Int.emod_lt_of_pos _ hpos)]
    simp only [Int.emod_add_emod]
    congr 2
    push_cast
    ring

/-- C7: from an index `i` with `0 <= i < n` in a list of `n` items, `next`
(which the key `j` runs) selects index 0 when `i = n-1` and `i+1` otherwise,
that is `(i+1) mod n`; the selected index stays within `0..n-1`, the items are
untouched, and `n` moves in a row come back to the index they started from. -/
theorem next_wraps (l : HelpList) (h0 : 0 ≤ l.currentItem)
    (hlt : l.currentItem < (l.items.length : Int)) :
    (next l).items = l.items ∧
    (next l).currentItem =
      (if l.currentItem = (l.items.length : Int) - 1 then 0 else l.currentItem + 1) ∧
    (next l).currentItem = (l.currentItem + 1) % (l.items.length : Int) ∧
    0 ≤ (next l).currentItem ∧ (next l).currentItem < (l.items.length : Int) ∧
    Nat.iterate next l.items.length l = l ∧
    (∀ (g : State) (key : Key),
      key ≠ KeyEsc → helpInputCapture g l ⟨key, 'j'⟩ = (g, next l, none)) := by
  have hpos : (0 : Int) < (l.items.length : Int) := by omega
  have hn := next_eq l h0 hlt
  refine ⟨by rw [hn], ?_, by rw [hn], ?_, ?_, ?_, ?_⟩
  · rw [hn]
    show (l.currentItem + 1) % (l.items.length : Int) = _
    by_cases hlast : l.currentItem = (l.items.length : Int) - 1
    · rw [if_pos hlast, hlast, Int.sub_add_cancel, Int.emod_self]
    · rw [if_neg hlast]
      exact Int.emod_eq_of_lt (by omega) (by omega)
  · rw [hn]
    exact Int.emod_nonneg _ (by omega)
  · rw [hn]
    exact Int.emod_lt_of_pos _ hpos
  · rw [iterate_next _ l h0 hlt, Int.add_emod_self, Int.emod_eq_of_lt h0 hlt]
  · intro g key hkey
    simp [helpInputCapture, hkey]

/-- Three lines, the last one selected. -/
theorem next_wraps_witness :
    (0 ≤ threeLines.currentItem ∧ threeLines.currentItem < (threeLines.items.length : Int)) ∧
    (next threeLines).currentItem = 0 ∧
    Nat.iterate next 3 threeLines = threeLines :=
  ⟨by decide,
   ((next_wraps threeLines (by decide) (by decide)).2.1).trans (by decide),
   (next_wraps threeLines (by decide) (by decide)).2.2.2.2.2.1⟩

/-! ### The popup timeout -/

/-- C8, on the code: `getPopupTimeout` asks viper for the path `popup_timeout`,
not for `general.popup_timeout`.  Whenever nothing is stored under
`popup_timeout` the parser is given the empty string, which it rejects, and
the result is five seconds with that error logged, whatever the configuration
holds under `general.popup_timeout`. -/
theorem getPopupTimeout_reads_popup_timeout
    (ParseDuration : String → Except String Duration) (err : String) (cfg : Config)
    (hkey : cfg.lookup "popup_timeout" = none)
    (hempty : ParseDuration "" = Except.error err) :
    getPopupTimeout ParseDuration cfg = (Second * 5, [err]) := by
  simp [getPopupTimeout, GetString, hkey, hempty]

/-- A configuration asking for two seconds yields five. -/
theorem getPopupTimeout_reads_popup_timeout_witness :
    GetString twoSeconds "general.popup_timeout" = "2s" ∧
    secondsParser "2s" = Except.ok (Second * 2) ∧
    getPopupTimeout secondsParser twoSeconds =
      (Second * 5, ["time: invalid duration \"\""]) :=
  ⟨by decide, rfl,
   getPopupTimeout_reads_popup_timeout secondsParser "time: invalid duration \"\""
     twoSeconds (by decide) rfl⟩

/-! ### The volume bar -/

/-- Repeating a one-character string is replicating the character. -/
theorem join_replicate_singleton (c : Char) (n : Nat) :
    String.join (List.replicate n (String.mk [c])) = String.mk (List.replicate n c) := by
  rw [String.join_eq]
  congr 1
  induction n with
  | zero => rfl
  | succ n ih => simp [List.replicate_succ, ih]

/-- A count that is not negative gives that many copies of the character. -/
theorem Repeat_singleton (c : Char) (count : Int) (h : 0 ≤ count) :
    Repeat (String.mk [c]) count = some (String.mk (List.replicate count.toNat c)) := by
  have hn : ¬ count < 0 := by omega
  simp only [Repeat, hn, if_false]
  rw [join_replicate_singleton]

/-- C10: for `0 <= vol <= 50` the text of the volume popup is a newline, the
decimal value of `vol`, ` |`, `vol` full cells, `50 - vol` dashes and `| 50`,
so the bar between the two `|` has exactly 50 cells; the two repeat counts are
both non-negative exactly when `0 <= vol <= 50`, and for every other `vol` one
of them is negative and no text is produced (`strings.Repeat` panics).
`volumePopup` shows that text in a timed popup titled ` Volume ` with the
configured timeout. -/
theorem volumeText_bar (vol : Int) :
    (0 ≤ vol ∧ vol ≤ 50 →
      volumeText vol =
        some ("\n" ++ formatNat vol.toNat ++ " |" ++
          String.mk (List.replicate vol.toNat '█') ++
          String.mk (List.replicate (50 - vol).toNat '-') ++ "| 50") ∧
      (String.mk (List.replicate vol.toNat '█') ++
        String.mk (List.replicate (50 - vol).toNat '-')).length = 50) ∧
    ((0 ≤ vol ∧ 0 ≤ 50 - vol) ↔ (0 ≤ vol ∧ vol ≤ 50)) ∧
    (¬ (0 ≤ vol ∧ vol ≤ 50) → (vol < 0 ∨ 50 - vol < 0) ∧ volumeText vol = none) ∧
    (∀ (ParseDuration : String → Except String Duration) (cfg : Config) (g : State)
        (scaled : Int), vol = scaled + 50 →
      volumePopup ParseDuration cfg g scaled =
        (volumeText vol).map (fun progress =>
          timedPopup { g with errors := g.errors ++ (getPopupTimeout ParseDuration cfg).2 }
            " Volume " progress (getPopupTimeout ParseDuration cfg).1 0 0)) := by
  refine ⟨?_, ?_, ?_, ?_⟩
  · rintro ⟨h0, h50⟩
    constructor
    · have hb : Repeat "█" vol = some (String.mk (List.replicate vol.toNat '█')) :=
        Repeat_singleton '█' vol h0
      have hr : Repeat "-" (50 - vol) = some (String.mk (List.replicate (50 - vol).toNat '-')) :=
        Repeat_singleton '-' (50 - vol) (by omega)
      have hf : formatInt vol = formatNat vol.toNat := by
        have : ¬ vol < 0 := by omega
        simp [formatInt, this]
      simp only [volumeText, hb, hr, hf, Option.bind_eq_bind, Option.some_bind, Option.pure_def,
        Option.some.injEq]
      rw [String.append_assoc _ "| " "50"]
      rfl
    · rw [String.length_append, String.length_mk, String.length_mk, List.length_replicate,
        List.length_replicate]
      omega
  · constructor
    · rintro ⟨h0, h1⟩; exact ⟨h0, by omega⟩
    · rintro ⟨h0, h1⟩; exact ⟨h0, by omega⟩
  · intro h
    by_cases hneg : vol < 0
    · refine ⟨Or.inl hneg, ?_⟩
      simp [volumeText, Repeat, hneg]
    · have h50 : 50 - vol < 0 := by
        by_contra hc
        exact h ⟨by omega, by omega⟩
      refine ⟨Or.inr h50, ?_⟩
      simp [volumeText, Repeat, hneg, h50]
  · intro ParseDuration cfg g scaled hv
    subst hv
    cases h : volumeText (scaled + 50) <;> simp [volumePopup, h]

/-- The bar at 47 and the failure at 51. -/
theorem volumeText_bar_witness :
    ((0 : Int) ≤ 47 ∧ (47 : Int) ≤ 50) ∧
    volumeText 47 =
      some ("\n47 |" ++ String.mk (List.replicate 47 '█') ++ "---" ++ "| 50") ∧
    ¬ ((0 : Int) ≤ 51 ∧ (51 : Int) ≤ 50) ∧
    volumeText 51 = none :=
  ⟨by decide,
   ((volumeText_bar 47).1 (by decide)).1.trans (by decide),
   by decide,
   ((volumeText_bar 51).2.2.1 (by decide)).2⟩

end Gomu
